import Mathlib

/-!
Shallow embedding of the target-shooting game (`src/script.js`) and
verification of its specification claims.

Numbers: the script uses JS doubles, but every value that matters to the
claims (points, multipliers, spawn coordinates, positions) is a small
dyadic rational on which double arithmetic is exact, so we embed them as
`ℚ`; scores are integers (`ℤ`).  `Math.round x` in JS is `⌊x + 1/2⌋`
(ties toward +∞).
-/

namespace Ajsow

/-- A target type descriptor (`targetTypes` entries, script.js:16-20). -/
structure TargetType where
  points : Int
  color : Nat
  sound : String
deriving DecidableEq, Repr

/-- `targetTypes.STANDARD` (script.js:17). -/
def STANDARD : TargetType := ⟨10, 0xffa500, "hit_standard"⟩

/-- `targetTypes.BONUS` (script.js:18). -/
def BONUS : TargetType := ⟨25, 0x00ff00, "hit_bonus"⟩

/-- `targetTypes.PENALTY` (script.js:19). -/
def PENALTY : TargetType := ⟨-15, 0xff0000, "hit_penalty"⟩

/-- The fixed set of target types, in object-key order. -/
def targetTypes : List TargetType := [STANDARD, BONUS, PENALTY]

/-- `maxTargets` (script.js:21). -/
def maxTargets : Nat := 15

/-- `COMBO_THRESHOLDS` (script.js:31-36).  The JS object has the
integer-like keys 1, 5, 10, 15, which `for..in` enumerates in ascending
numeric order, so we embed it as the ascending association list. -/
def COMBO_THRESHOLDS : List (Nat × ℚ) := [(1, 1), (5, 3/2), (10, 2), (15, 3)]

/-- `updateCombo` (script.js:411-420): starts from
`COMBO_THRESHOLDS[1] = 1.0` and overwrites with each threshold value whose
key is `≤ consecutiveHits`, scanning keys in ascending order. -/
def updateCombo (consecutiveHits : Nat) : ℚ :=
  COMBO_THRESHOLDS.foldl
    (fun newMultiplier p => if p.1 ≤ consecutiveHits then p.2 else newMultiplier)
    (1 : ℚ)

/-- JS `Math.round`: nearest integer, ties toward +∞ (`⌊x + 1/2⌋`). -/
def jsRound (q : ℚ) : Int := ⌊q + 1/2⌋

/-- `Math.round(targetData.type.points * comboMultiplier)` (script.js:376). -/
def pointsEarned (ty : TargetType) (m : ℚ) : Int := jsRound ((ty.points : ℚ) * m)

/-- The scoring state (`score`, `consecutiveHits`, `comboMultiplier`,
script.js:12-14). -/
structure GameState where
  score : Int
  consecutiveHits : Nat
  comboMultiplier : ℚ
deriving DecidableEq, Repr

/-- The state right after `startGameLogic` (script.js:214-222): score 0,
streak 0, multiplier recomputed by `updateCombo`. -/
def initialGameState : GameState := ⟨0, 0, updateCombo 0⟩

/-- `processHit` (script.js:372-386), scoring part: increment the streak,
recompute the multiplier, then add the rounded points. -/
def processHit (ty : TargetType) (s : GameState) : GameState :=
  let ch := s.consecutiveHits + 1
  let m := updateCombo ch
  { score := s.score + pointsEarned ty m, consecutiveHits := ch, comboMultiplier := m }

/-- `processMiss` (script.js:388-395), scoring part: reset the streak and
recompute the multiplier. -/
def processMiss (s : GameState) : GameState :=
  { s with consecutiveHits := 0, comboMultiplier := updateCombo 0 }

/-- A scoring-relevant event of a session: a hit on a target of a given
type, or a miss. -/
inductive HEv where
  | hit (ty : TargetType)
  | miss
deriving DecidableEq, Repr

/-- Run a sequence of hit/miss events through the scoring engine. -/
def runEvents : List HEv → GameState → GameState
  | [], s => s
  | HEv.hit ty :: rest, s => runEvents rest (processHit ty s)
  | HEv.miss :: rest, s => runEvents rest (processMiss s)

/-- The spec's combo threshold table, written as the spec states it:
greatest threshold key `≤ consecutiveHits`, else 1.0. -/
def multTable (n : Nat) : ℚ :=
  if 15 ≤ n then 3 else if 10 ≤ n then 2 else if 5 ≤ n then 3/2 else 1

/-- The spec's score formula: the sum over the hits of
`round(basePoints * multiplier-at-that-hit)`, where the multiplier comes
from the table at the post-increment streak count, and a miss resets the
streak. -/
def specScore : List HEv → Nat → Int
  | [], _ => 0
  | HEv.hit ty :: rest, streak =>
      jsRound ((ty.points : ℚ) * multTable (streak + 1)) + specScore rest (streak + 1)
  | HEv.miss :: rest, _ => specScore rest 0

lemma updateCombo_eq_multTable (n : Nat) : updateCombo n = multTable n := by
  unfold updateCombo COMBO_THRESHOLDS multTable
  simp only [List.foldl]
  split_ifs <;> rfl

lemma runEvents_score (evs : List HEv) :
    ∀ s : GameState, (runEvents evs s).score = s.score + specScore evs s.consecutiveHits := by
  induction evs with
  | nil => intro s; simp [runEvents, specScore]
  | cons ev rest ih =>
      intro s
      cases ev with
      | hit ty =>
          simp only [runEvents, specScore, ih, processHit, pointsEarned,
            updateCombo_eq_multTable]
          ring
      | miss =>
          simp only [runEvents, specScore, ih, processMiss]

/-- C1: for every value of `consecutiveHits`, the multiplier computed by
`updateCombo` equals the threshold-table value (1.0 on [0,4], 1.5 on
[5,9], 2.0 on [10,14], 3.0 from 15 up); in particular it is 1.0 at 0. -/
theorem updateCombo_matches_table :
    (∀ n : Nat, updateCombo n = multTable n) ∧ updateCombo 0 = 1 :=
  ⟨updateCombo_eq_multTable, by rw [updateCombo_eq_multTable]; rfl⟩

/-- C2: from a fresh session, the final score of any sequence of hits and
misses equals the sum over the hits of `round(basePoints * multiplier)`,
the multiplier taken from the table at the post-increment streak count,
with misses resetting the streak. -/
theorem score_equals_spec_sum (evs : List HEv) :
    (runEvents evs initialGameState).score = specScore evs 0 := by
  rw [runEvents_score evs initialGameState]
  show (0 : Int) + specScore evs 0 = specScore evs 0
  omega

/-- Round half away from zero, as the claim C3 states the rounding mode. -/
def roundHalfAwayFromZero (q : ℚ) : Int :=
  if 0 ≤ q then ⌊q + 1/2⌋ else -⌊-q + 1/2⌋

/-- C3 counterexample: at the reachable multiplier 1.5 (streak 5), a
PENALTY hit earns `Math.round(-22.5) = -22`, while rounding half away
from zero would give -23 — the code does not use
round-half-away-from-zero. -/
theorem pointsEarned_not_half_away_from_zero :
    updateCombo 5 = 3/2 ∧
    pointsEarned PENALTY (updateCombo 5) = -22 ∧
    roundHalfAwayFromZero ((PENALTY.points : ℚ) * updateCombo 5) = -23 := by
  refine ⟨by rfl, ?_, ?_⟩
  · show jsRound ((-15 : ℚ) * (3/2)) = -22
    unfold jsRound
    norm_num
  · show roundHalfAwayFromZero ((-15 : ℚ) * (3/2)) = -23
    unfold roundHalfAwayFromZero
    norm_num

/-- C3 (amended): for every target type and every multiplier in the
threshold table, `pointsEarned` is the nearest integer to
`points * multiplier` with ties rounded toward +∞ (JS `Math.round`
round-half-up semantics): it is the unique integer in
`(points*m - 1/2, points*m + 1/2]`. -/
theorem pointsEarned_round_half_up (ty : TargetType) (m : ℚ)
    (_hty : ty ∈ targetTypes) (_hm : m ∈ COMBO_THRESHOLDS.map Prod.snd) :
    ((ty.points : ℚ) * m) - 1/2 < (pointsEarned ty m : ℚ) ∧
    (pointsEarned ty m : ℚ) ≤ ((ty.points : ℚ) * m) + 1/2 := by
  constructor
  · have h := Int.sub_one_lt_floor (((ty.points : ℚ) * m) + 1/2)
    unfold pointsEarned jsRound
    linarith
  · have h := Int.floor_le (((ty.points : ℚ) * m) + 1/2)
    unfold pointsEarned jsRound
    linarith

/-- Witness for C3's amended theorem at PENALTY and multiplier 1.5. -/
theorem pointsEarned_round_half_up_witness :
    PENALTY ∈ targetTypes ∧ (3/2 : ℚ) ∈ COMBO_THRESHOLDS.map Prod.snd ∧
    (((PENALTY.points : ℚ) * (3/2)) - 1/2 < (pointsEarned PENALTY (3/2) : ℚ) ∧
      (pointsEarned PENALTY (3/2) : ℚ) ≤ ((PENALTY.points : ℚ) * (3/2)) + 1/2) := by
  refine ⟨by simp [targetTypes], by simp [COMBO_THRESHOLDS], ?_⟩
  exact pointsEarned_round_half_up PENALTY (3/2) (by simp [targetTypes])
    (by simp [COMBO_THRESHOLDS])

/-- `spawnTarget`'s x sample: `(Math.random() - 0.5) * 20` (script.js:268),
as a function of the `Math.random()` draw `r ∈ [0,1)`. -/
def spawnX (r : ℚ) : ℚ := (r - 1/2) * 20

/-- `spawnTarget`'s y sample: `Math.random() * 5 + 2` (script.js:269). -/
def spawnY (r : ℚ) : ℚ := r * 5 + 2

/-- `spawnTarget`'s z sample: `(Math.random() - 0.8) * 15` (script.js:270);
the code comment there documents the intended range `-12 to -3`. -/
def spawnZ (r : ℚ) : ℚ := (r - 4/5) * 15

/-- C4: evaluation at the failing input.  A valid `Math.random()` draw of
0.9 yields `spawnZ = 1.5`, outside the documented depth range [-12,-3]
(the code's own comment at script.js:270 says "-12 to -3 units deep");
the x and y formulas at the same draw stay inside their documented
ranges. -/
theorem spawnZ_outside_documented_range :
    (0 ≤ (9/10 : ℚ) ∧ (9/10 : ℚ) < 1) ∧
    spawnZ (9/10) = 3/2 ∧
    ¬ (-12 ≤ spawnZ (9/10) ∧ spawnZ (9/10) ≤ -3) ∧
    (-10 ≤ spawnX (9/10) ∧ spawnX (9/10) ≤ 10) ∧
    (2 ≤ spawnY (9/10) ∧ spawnY (9/10) ≤ 7) := by
  refine ⟨by norm_num, by norm_num [spawnZ], by norm_num [spawnZ],
    by norm_num [spawnX], by norm_num [spawnY]⟩

/-- A tracked target (`targetData`, script.js:289-294): the mesh uuid
(also stored as `id`), the physics body handle, the type, and the
vertical positions of body and mesh (the coordinate all claims read). -/
structure Tgt where
  id : Nat
  bodyId : Nat
  ty : TargetType
  bodyY : ℚ
  meshY : ℚ
deriving DecidableEq, Repr

/-- The full game-world state: scoring state, the `targets` tracking
array, the set of meshes registered in the scene, the bodies registered
in the physics world, the disposed GPU resources (by mesh uuid), the
`mesh.userData.targetData` association (keyed by mesh uuid), and the
spawn timers (script.js:12-23). -/
structure Sim where
  gs : GameState
  targets : List Tgt
  sceneMeshes : List Nat
  worldBodies : List Nat
  disposed : List Nat
  meshData : List (Nat × Tgt)
  timeSinceLastSpawn : ℚ
  targetSpawnInterval : ℚ
deriving DecidableEq, Repr

/-- Association-list lookup by mesh uuid. -/
def lookupAssoc (l : List (Nat × Tgt)) (u : Nat) : Option Tgt :=
  (l.find? (fun p => p.1 == u)).map Prod.snd

/-- `mesh.userData.targetData` read for the mesh with uuid `u`. -/
def lookupMeshData (s : Sim) (u : Nat) : Option Tgt :=
  lookupAssoc s.meshData u

/-- `removeTarget` (script.js:397-409): remove the mesh from the scene,
dispose its geometry/material, remove the body from the physics world,
and splice the entry out of the tracking array at `index`. -/
def removeTarget (td : Tgt) (index : Nat) (s : Sim) : Sim :=
  { s with
    sceneMeshes := s.sceneMeshes.erase td.id
    disposed := td.id :: s.disposed
    worldBodies := s.worldBodies.erase td.bodyId
    targets := s.targets.eraseIdx index }

/-- `spawnTarget` (script.js:254-307): build a target of the type picked
by the random index, at the sampled height, register mesh and body, link
`mesh.userData.targetData`, and push onto `targets`.  `u` is the fresh
`mesh.uuid`; the body handle is identified with the same fresh number. -/
def spawnTd (u tyIdx : Nat) (ry : ℚ) : Tgt :=
  { id := u, bodyId := u, ty := targetTypes.getD (tyIdx % targetTypes.length) STANDARD,
    bodyY := spawnY ry, meshY := spawnY ry }

def spawnTarget (u : Nat) (tyIdx : Nat) (ry : ℚ) (s : Sim) : Sim :=
  let td := spawnTd u tyIdx ry
  { s with
    meshData := (u, td) :: s.meshData
    sceneMeshes := u :: s.sceneMeshes
    worldBodies := u :: s.worldBodies
    targets := s.targets ++ [td] }

/-- `physicsWorld.step` (script.js:228) as an environment-chosen update of
every tracked body's vertical position. -/
def stepPhysics (phys : Nat → ℚ) (s : Sim) : Sim :=
  { s with targets := s.targets.map (fun t => { t with bodyY := phys t.bodyId }) }

/-- One iteration `k` of the `targets.forEach` loop (script.js:241-250),
with JS `forEach` semantics: the length is captured before the loop
(`fuel` counts the remaining captured indices) and index `k` is visited
only if it still exists in the current array.  Each visited target is
synchronized (mesh position copied from body) and, if its body has fallen
below -10, retired via `removeTarget` at the current index.  Returns the
final state, the list of visited target ids, and the list of retired
target ids. -/
def pruneAux : Nat → Nat → Sim → Sim × List Nat × List Nat
  | 0, _, s => (s, [], [])
  | fuel + 1, k, s =>
    match s.targets[k]? with
    | none => pruneAux fuel (k + 1) s
    | some t =>
      let t' := { t with meshY := t.bodyY }
      let s1 := { s with targets := s.targets.set k t' }
      if t'.bodyY < -10 then
        let s2 := removeTarget t' k s1
        let r := pruneAux fuel (k + 1) s2
        (r.1, t.id :: r.2.1, t.id :: r.2.2)
      else
        let r := pruneAux fuel (k + 1) s1
        (r.1, t.id :: r.2.1, r.2.2)

/-- The per-frame target loop of `update` (script.js:241-250). -/
def syncAndPrune (s : Sim) : Sim × List Nat × List Nat :=
  pruneAux s.targets.length 0 s

/-- The outcome of one `shoot` invocation (script.js:310-370): the new
state, whether `processHit` ran, whether `processMiss` ran, the retired
target ids, and whether either defensive warning branch was taken
(script.js:358 "Hit target not found in tracking array?" and
script.js:362 "Hit mesh did not have targetData!"). -/
structure ShootResult where
  sim : Sim
  hitRan : Bool
  missRan : Bool
  retired : List Nat
  warnNoData : Bool
  warnNotFound : Bool
deriving DecidableEq, Repr

/-- `targets.findIndex(t => t.id === targetData.id)` (script.js:354),
as an option-valued index search. -/
def findTargetIdx (tid : Nat) : List Tgt → Option Nat
  | [] => none
  | t :: rest => if t.id = tid then some 0 else (findTargetIdx tid rest).map (· + 1)

/-- `shoot` (script.js:310-370).  `ray` is the raycast outcome: `none`
when `intersects` is empty, `some u` when the closest intersected mesh
has uuid `u` (the raycast runs over `targets.map(t => t.mesh)` only).
On an intersection the owning target is read from
`mesh.userData.targetData`; if present, `processHit` runs and the target
is looked up by id in the tracking array (`targets.findIndex`) and
removed; a missing association is treated as a miss. -/
def shoot (s : Sim) (ray : Option Nat) : ShootResult :=
  match ray with
  | none => ⟨{ s with gs := processMiss s.gs }, false, true, [], false, false⟩
  | some u =>
    match lookupMeshData s u with
    | some td =>
      let s1 := { s with gs := processHit td.ty s.gs }
      match findTargetIdx td.id s1.targets with
      | some i => ⟨removeTarget td i s1, true, false, [td.id], false, false⟩
      | none => ⟨s1, true, false, [], false, true⟩
    | none => ⟨{ s with gs := processMiss s.gs }, false, true, [], true, false⟩

/-- `targetSpawnInterval` resampling: `0.8 + Math.random() * 0.7`
(script.js:236). -/
def newSpawnInterval (r : ℚ) : ℚ := 4/5 + r * (7/10)

/-- The first half of one frame of `update` (script.js:224-237) after
assets are ready: step physics, advance the spawn timer, and spawn when
the timer exceeds the interval and the population cap is not reached.
The environment supplies the frame delta `dt`, the fresh uuid `u`, the
random draws, and the physics outcome `phys`. -/
def framePre (dt : ℚ) (u tyIdx : Nat) (ry rInterval : ℚ) (phys : Nat → ℚ)
    (s : Sim) : Sim :=
  let s0 := stepPhysics phys s
  let s1 := { s0 with timeSinceLastSpawn := s0.timeSinceLastSpawn + dt }
  if s1.targetSpawnInterval < s1.timeSinceLastSpawn ∧ s1.targets.length < maxTargets then
    { spawnTarget u tyIdx ry s1 with
      timeSinceLastSpawn := 0, targetSpawnInterval := newSpawnInterval rInterval }
  else s1

/-- One full frame of `update` (script.js:224-251): physics + spawn
phase, then the target sync/prune loop. -/
def frame (dt : ℚ) (u tyIdx : Nat) (ry rInterval : ℚ) (phys : Nat → ℚ)
    (s : Sim) : Sim × List Nat × List Nat :=
  syncAndPrune (framePre dt u tyIdx ry rInterval phys s)

/-- An externally observable event: one animation frame (with its random
draws and physics outcome) or one pointer-down `shoot` (with its raycast
outcome). -/
inductive Ev where
  | frame (dt : ℚ) (u tyIdx : Nat) (ry rInterval : ℚ) (phys : Nat → ℚ)
  | shoot (ray : Option Nat)

/-- Apply one event; also return the ids of the targets retired by it. -/
def stepEv (s : Sim) : Ev → Sim × List Nat
  | Ev.frame dt u tyIdx ry ri phys =>
      let r := frame dt u tyIdx ry ri phys s
      (r.1, r.2.2)
  | Ev.shoot ray =>
      let r := shoot s ray
      (r.sim, r.retired)

/-- Run a list of events, collecting every retired target id in order. -/
def runTrace : Sim → List Ev → Sim × List Nat
  | s, [] => (s, [])
  | s, ev :: rest =>
      let r1 := stepEv s ev
      let r2 := runTrace r1.1 rest
      (r2.1, r1.2 ++ r2.2)

/-- The tracked target ids, in tracking-array order. -/
def ids (s : Sim) : List Nat := s.targets.map Tgt.id

section Helpers

lemma count_map_eraseIdx (f : Tgt → Nat) :
    ∀ (l : List Tgt) (k : Nat) (t : Tgt), l[k]? = some t → ∀ j : Nat,
      ((l.eraseIdx k).map f).count j + (if f t = j then 1 else 0) = (l.map f).count j := by
  intro l
  induction l with
  | nil => intro k t h; simp at h
  | cons a l' ih =>
      intro k t h j
      cases k with
      | zero =>
          simp only [List.getElem?_cons_zero, Option.some.injEq] at h
          subst h
          simp [List.eraseIdx, List.count_cons]
      | succ k' =>
          simp only [List.getElem?_cons_succ] at h
          have := ih k' t h j
          simp only [List.eraseIdx, List.map_cons, List.count_cons]
          omega

lemma map_set_eq_of_eq (f : Tgt → Nat) :
    ∀ (l : List Tgt) (k : Nat) (t t' : Tgt), l[k]? = some t → f t' = f t →
      (l.set k t').map f = l.map f := by
  intro l
  induction l with
  | nil => intro k t t' h; simp at h
  | cons a l' ih =>
      intro k t t' h hf
      cases k with
      | zero =>
          simp only [List.getElem?_cons_zero, Option.some.injEq] at h
          subst h
          simp [List.set, hf]
      | succ k' =>
          simp only [List.getElem?_cons_succ] at h
          simp [List.set, ih k' t t' h hf]

lemma not_mem_eraseIdx_of_nodup :
    ∀ (l : List Tgt) (k : Nat) (t : Tgt), l.Nodup → l[k]? = some t → t ∉ l.eraseIdx k := by
  intro l
  induction l with
  | nil => intro k t _ h; simp at h
  | cons a l' ih =>
      intro k t hnd h
      cases k with
      | zero =>
          simp only [List.getElem?_cons_zero, Option.some.injEq] at h
          subst h
          simpa [List.eraseIdx] using (List.nodup_cons.mp hnd).1
      | succ k' =>
          simp only [List.getElem?_cons_succ] at h
          have hnd' := List.nodup_cons.mp hnd
          have hmem : t ∈ l' := List.getElem?_mem h
          intro hin
          simp only [List.eraseIdx, List.mem_cons] at hin
          rcases hin with rfl | hin
          · exact hnd'.1 hmem
          · exact ih k' t hnd'.2 h hin

lemma findTargetIdx_some :
    ∀ (l : List Tgt) (tid i : Nat), findTargetIdx tid l = some i →
      ∃ t, l[i]? = some t ∧ t.id = tid := by
  intro l
  induction l with
  | nil => intro tid i h; simp [findTargetIdx] at h
  | cons a l' ih =>
      intro tid i h
      unfold findTargetIdx at h
      split_ifs at h with ha
      · cases h
        exact ⟨a, by simp, ha⟩
      · cases hf : findTargetIdx tid l' with
        | none => rw [hf] at h; simp at h
        | some i' =>
            rw [hf] at h
            simp only [Option.map_some'] at h
            cases h
            obtain ⟨t, ht, hid⟩ := ih tid i' hf
            exact ⟨t, by simpa using ht, hid⟩

lemma findTargetIdx_none :
    ∀ (l : List Tgt) (tid : Nat), findTargetIdx tid l = none →
      ∀ t ∈ l, t.id ≠ tid := by
  intro l
  induction l with
  | nil => intro tid _ t ht; simp at ht
  | cons a l' ih =>
      intro tid h t ht
      unfold findTargetIdx at h
      split_ifs at h with ha
      have hnone : findTargetIdx tid l' = none := by
        simpa using h
      rcases List.mem_cons.mp ht with rfl | ht'
      · exact ha
      · exact ih tid hnone t ht'

end Helpers

section TraceLemmas

lemma pruneAux_meshData :
    ∀ (fuel k : Nat) (s : Sim), (pruneAux fuel k s).1.meshData = s.meshData := by
  intro fuel
  induction fuel with
  | zero => intro k s; rfl
  | succ n ih =>
      intro k s
      unfold pruneAux
      cases h : s.targets[k]? with
      | none => exact ih (k + 1) s
      | some t =>
          simp only
          split_ifs with hy
          · exact ih (k + 1) _
          · exact ih (k + 1) _

lemma pruneAux_length_le :
    ∀ (fuel k : Nat) (s : Sim), (pruneAux fuel k s).1.targets.length ≤ s.targets.length := by
  intro fuel
  induction fuel with
  | zero => intro k s; exact le_rfl
  | succ n ih =>
      intro k s
      unfold pruneAux
      cases h : s.targets[k]? with
      | none => exact ih (k + 1) s
      | some t =>
          simp only
          split_ifs with hy
          · refine le_trans (ih (k + 1) _) ?_
            simp only [removeTarget]
            calc ((s.targets.set k { t with meshY := t.bodyY }).eraseIdx k).length
                ≤ (s.targets.set k { t with meshY := t.bodyY }).length :=
                  List.length_eraseIdx_le _ _
              _ = s.targets.length := List.length_set _ _ _
          · refine le_trans (ih (k + 1) _) ?_
            exact le_of_eq (List.length_set _ _ _)

lemma pruneAux_count :
    ∀ (fuel k : Nat) (s : Sim) (j : Nat),
      ((pruneAux fuel k s).1.targets.map Tgt.id).count j
        + ((pruneAux fuel k s).2.2).count j
        = (s.targets.map Tgt.id).count j := by
  intro fuel
  induction fuel with
  | zero => intro k s j; simp [pruneAux]
  | succ n ih =>
      intro k s j
      unfold pruneAux
      cases h : s.targets[k]? with
      | none => simpa using ih (k + 1) s j
      | some t =>
          simp only
          have hset : ((s.targets.set k { t with meshY := t.bodyY }).map Tgt.id)
              = s.targets.map Tgt.id :=
            map_set_eq_of_eq Tgt.id s.targets k t _ h rfl
          split_ifs with hy
          · have hk : k < s.targets.length := by
              by_contra hk
              simp [List.getElem?_eq_none (Nat.le_of_not_lt hk)] at h
            have hget : (s.targets.set k { t with meshY := t.bodyY })[k]?
                = some { t with meshY := t.bodyY } := by
              simp [List.getElem?_set_self, hk]
            have herase := count_map_eraseIdx Tgt.id
              (s.targets.set k { t with meshY := t.bodyY }) k
              { t with meshY := t.bodyY } hget j
            rw [hset] at herase
            have hrec := ih (k + 1) (removeTarget { t with meshY := t.bodyY } k
              { s with targets := s.targets.set k { t with meshY := t.bodyY } }) j
            simp only [removeTarget] at hrec ⊢
            simp only [List.count_cons, beq_iff_eq]
            have hid : ({ t with meshY := t.bodyY } : Tgt).id = t.id := rfl
            rw [hid] at herase
            omega
          · have := ih (k + 1) { s with targets := s.targets.set k { t with meshY := t.bodyY } } j
            simp only at this
            rw [hset] at this
            simpa using this

lemma shoot_meshData (s : Sim) (ray : Option Nat) : (shoot s ray).sim.meshData = s.meshData := by
  cases ray with
  | none => rfl
  | some u =>
      cases h : lookupMeshData s u with
      | none => simp [shoot, h]
      | some td =>
          cases hf : findTargetIdx td.id s.targets with
          | none => simp [shoot, h, hf]
          | some i => simp [shoot, h, hf, removeTarget]

lemma shoot_count (s : Sim) (ray : Option Nat) (j : Nat) :
    ((shoot s ray).sim.targets.map Tgt.id).count j + ((shoot s ray).retired).count j
      = (s.targets.map Tgt.id).count j := by
  cases ray with
  | none => simp [shoot]
  | some u =>
      cases h : lookupMeshData s u with
      | none => simp [shoot, h]
      | some td =>
          cases hf : findTargetIdx td.id s.targets with
          | none => simp [shoot, h, hf]
          | some i =>
              obtain ⟨t, hget, hid⟩ := findTargetIdx_some s.targets td.id i hf
              have herase := count_map_eraseIdx Tgt.id s.targets i t hget j
              rw [hid] at herase
              simp only [shoot, h, hf, removeTarget, List.count_cons, List.count_nil,
                beq_iff_eq]
              omega

/-- The uuid a frame event would hand to `spawnTarget` (empty for shoots). -/
def spawnIds : Ev → List Nat
  | Ev.frame _ u _ _ _ _ => [u]
  | Ev.shoot _ => []

/-- All uuids the trace's frame events carry for spawning. -/
def spawnedIds : List Ev → List Nat
  | [] => []
  | ev :: rest => spawnIds ev ++ spawnedIds rest

lemma ids_stepPhysics (phys : Nat → ℚ) (s : Sim) :
    (stepPhysics phys s).targets.map Tgt.id = s.targets.map Tgt.id := by
  simp only [stepPhysics, List.map_map]
  rfl

lemma syncAndPrune_count (s : Sim) (j : Nat) :
    ((syncAndPrune s).1.targets.map Tgt.id).count j + ((syncAndPrune s).2.2).count j
      = (s.targets.map Tgt.id).count j :=
  pruneAux_count s.targets.length 0 s j

lemma framePre_cases (dt : ℚ) (u tyIdx : Nat) (ry ri : ℚ) (phys : Nat → ℚ) (s : Sim) :
    ((framePre dt u tyIdx ry ri phys s).meshData = s.meshData
      ∧ (framePre dt u tyIdx ry ri phys s).targets = (stepPhysics phys s).targets)
    ∨ ((framePre dt u tyIdx ry ri phys s).meshData = (u, spawnTd u tyIdx ry) :: s.meshData
      ∧ (framePre dt u tyIdx ry ri phys s).targets
          = (stepPhysics phys s).targets ++ [spawnTd u tyIdx ry]) := by
  unfold framePre
  dsimp only
  split_ifs with hsp
  · right; exact ⟨rfl, rfl⟩
  · left; exact ⟨rfl, rfl⟩

lemma framePre_count (dt : ℚ) (u tyIdx : Nat) (ry ri : ℚ) (phys : Nat → ℚ)
    (s : Sim) (j : Nat) :
    ((framePre dt u tyIdx ry ri phys s).targets.map Tgt.id).count j
      ≤ (s.targets.map Tgt.id).count j + List.count j [u] := by
  rcases framePre_cases dt u tyIdx ry ri phys s with ⟨_, ht⟩ | ⟨_, ht⟩
  · rw [ht, ids_stepPhysics]
    omega
  · rw [ht]
    simp only [List.map_append, List.count_append, ids_stepPhysics]
    have hu : (List.map Tgt.id [spawnTd u tyIdx ry]) = [u] := rfl
    rw [hu]

lemma stepEv_count (s : Sim) (ev : Ev) (j : Nat) :
    ((stepEv s ev).1.targets.map Tgt.id).count j + ((stepEv s ev).2).count j
      ≤ (s.targets.map Tgt.id).count j + (spawnIds ev).count j := by
  cases ev with
  | shoot ray =>
      have := shoot_count s ray j
      simp only [stepEv, spawnIds, List.count_nil]
      omega
  | frame dt u tyIdx ry ri phys =>
      have h1 := syncAndPrune_count (framePre dt u tyIdx ry ri phys s) j
      have h2 := framePre_count dt u tyIdx ry ri phys s j
      simp only [stepEv, frame, spawnIds]
      omega

lemma runTrace_count (evs : List Ev) :
    ∀ (s : Sim) (j : Nat),
      ((runTrace s evs).2).count j
        ≤ (s.targets.map Tgt.id).count j + (spawnedIds evs).count j := by
  induction evs with
  | nil => intro s j; simp [runTrace, spawnedIds]
  | cons ev rest ih =>
      intro s j
      have h1 := stepEv_count s ev j
      have h2 := ih (stepEv s ev).1 j
      simp only [runTrace, spawnedIds, List.count_append]
      omega

lemma shoot_ids_subset (s : Sim) (ray : Option Nat) (v : Nat)
    (hv : v ∈ (shoot s ray).sim.targets.map Tgt.id) : v ∈ s.targets.map Tgt.id := by
  have h := shoot_count s ray v
  have h1 := List.count_pos_iff.mpr hv
  by_contra hcon
  have h2 : (s.targets.map Tgt.id).count v = 0 := List.count_eq_zero.mpr hcon
  omega

lemma syncAndPrune_ids_subset (s : Sim) (v : Nat)
    (hv : v ∈ (syncAndPrune s).1.targets.map Tgt.id) : v ∈ s.targets.map Tgt.id := by
  have h := syncAndPrune_count s v
  have h1 := List.count_pos_iff.mpr hv
  by_contra hcon
  have h2 : (s.targets.map Tgt.id).count v = 0 := List.count_eq_zero.mpr hcon
  omega

end TraceLemmas

section ConcreteStates

/-- A target that has fallen below the floor (body at y = -11), its mesh
not yet synchronized (mesh at y = 0). -/
def tgtA : Tgt := ⟨0, 0, STANDARD, -11, 0⟩

/-- A second fallen target, identical but for its ids. -/
def tgtB : Tgt := ⟨1, 1, STANDARD, -11, 0⟩

/-- A session state tracking the two fallen targets. -/
def twoFallenSim : Sim :=
  { gs := initialGameState
    targets := [tgtA, tgtB]
    sceneMeshes := [0, 1]
    worldBodies := [0, 1]
    disposed := []
    meshData := [(0, tgtA), (1, tgtB)]
    timeSinceLastSpawn := 0
    targetSpawnInterval := 1 }

/-- A state tracking no targets at all (a fresh session). -/
def emptySim : Sim := ⟨initialGameState, [], [], [], [], [], 0, 1⟩

/-- A healthy tracked target, well above the floor. -/
def oneTgt : Tgt := ⟨4, 4, BONUS, 3, 3⟩

/-- A session state tracking exactly `oneTgt`, with consistent scene,
world and `userData` registrations. -/
def oneTgtSim : Sim := ⟨initialGameState, [oneTgt], [4], [4], [], [(4, oneTgt)], 0, 1⟩

end ConcreteStates

/-- C5: evaluation at the failing input.  With two tracked targets both
below the -10 floor, the per-frame loop visits only the first one: it
retires target 0, and then skips target 1 entirely — target 1 is neither
synchronized (its mesh position stays stale) nor retired in that pass,
although its body is below the floor, and it remains tracked. -/
theorem syncAndPrune_skips_after_removal :
    (syncAndPrune twoFallenSim).2.1 = [0] ∧
    (syncAndPrune twoFallenSim).2.2 = [0] ∧
    (syncAndPrune twoFallenSim).1.targets = [tgtB] ∧
    tgtB.bodyY < -10 ∧
    tgtB.meshY ≠ tgtB.bodyY := by
  refine ⟨rfl, rfl, rfl, ?_, ?_⟩
  · show (-11 : ℚ) < -10
    norm_num
  · show (0 : ℚ) ≠ -11
    norm_num

/-- C6: every event (frame with its spawn attempt and prune pass, or a
shoot) preserves the invariant `targets.length ≤ maxTargets`. -/
theorem targets_length_le_maxTargets (s : Sim) (ev : Ev)
    (h : s.targets.length ≤ maxTargets) :
    ((stepEv s ev).1).targets.length ≤ maxTargets := by
  cases ev with
  | shoot ray =>
      cases ray with
      | none => simpa [stepEv, shoot] using h
      | some u =>
          cases hm : lookupMeshData s u with
          | none => simpa [stepEv, shoot, hm] using h
          | some td =>
              cases hf : findTargetIdx td.id s.targets with
              | none => simpa [stepEv, shoot, hm, hf] using h
              | some i =>
                  have hle : (s.targets.eraseIdx i).length ≤ s.targets.length :=
                    List.length_eraseIdx_le _ _
                  simp only [stepEv, shoot, hm, hf, removeTarget]
                  omega
  | frame dt u tyIdx ry ri phys =>
      have h1 := pruneAux_length_le (framePre dt u tyIdx ry ri phys s).targets.length 0
        (framePre dt u tyIdx ry ri phys s)
      have h2 : (framePre dt u tyIdx ry ri phys s).targets.length ≤ maxTargets := by
        unfold framePre
        dsimp only
        split_ifs with hsp
        · have hlt := hsp.2
          simp only [spawnTarget]
          simp only [List.length_append, List.length_cons, List.length_nil]
          omega
        · simpa [stepPhysics] using h
      simp only [stepEv, frame, syncAndPrune]
      exact le_trans h1 h2

/-- Witness for C6 at the empty session and a miss shot. -/
theorem targets_length_le_maxTargets_witness :
    emptySim.targets.length ≤ maxTargets ∧
    ((stepEv emptySim (Ev.shoot none)).1).targets.length ≤ maxTargets :=
  ⟨by decide, targets_length_le_maxTargets emptySim (Ev.shoot none) (by decide)⟩

/-- C7: every `shoot` invocation runs exactly one of `processHit` and
`processMiss`, retires at most one target, and an intersected mesh with
no owning `targetData` is handled as a miss (with no retirement), not a
failure. -/
theorem shoot_one_path (s : Sim) (ray : Option Nat) :
    (shoot s ray).hitRan = !(shoot s ray).missRan ∧
    (shoot s ray).retired.length ≤ 1 ∧
    (∀ u, ray = some u → lookupMeshData s u = none →
      (shoot s ray).missRan = true ∧ (shoot s ray).retired = []) := by
  cases ray with
  | none =>
      refine ⟨rfl, by simp [shoot], ?_⟩
      intro u hu
      exact absurd hu (by simp)
  | some u =>
      cases hm : lookupMeshData s u with
      | none =>
          refine ⟨by simp [shoot, hm], by simp [shoot, hm], ?_⟩
          intro u' _ _
          simp [shoot, hm]
      | some td =>
          cases hf : findTargetIdx td.id s.targets with
          | none =>
              refine ⟨by simp [shoot, hm, hf], by simp [shoot, hm, hf], ?_⟩
              intro u' hu' hnone
              cases hu'
              rw [hm] at hnone
              exact absurd hnone (by simp)
          | some i =>
              refine ⟨by simp [shoot, hm, hf], by simp [shoot, hm, hf], ?_⟩
              intro u' hu' hnone
              cases hu'
              rw [hm] at hnone
              exact absurd hnone (by simp)

/-- Witness for C7: shooting a mesh uuid with no `targetData` association
in the empty session takes the miss path and retires nothing. -/
theorem shoot_one_path_witness :
    (shoot emptySim (some 3)).missRan = true ∧ (shoot emptySim (some 3)).retired = [] :=
  (shoot_one_path emptySim (some 3)).2.2 3 rfl rfl

/-- C8: after `removeTarget` on a tracked target (at its index, with the
registrations duplicate-free), the target is gone from the tracking
array, its mesh from the scene, its body from the physics world, and its
GPU resources are disposed. -/
theorem removeTarget_no_dangling (s : Sim) (td : Tgt) (i : Nat)
    (hget : s.targets[i]? = some td)
    (hnd : s.targets.Nodup)
    (hscene : s.sceneMeshes.Nodup)
    (hworld : s.worldBodies.Nodup) :
    td ∉ (removeTarget td i s).targets ∧
    td.id ∉ (removeTarget td i s).sceneMeshes ∧
    td.bodyId ∉ (removeTarget td i s).worldBodies ∧
    td.id ∈ (removeTarget td i s).disposed := by
  refine ⟨?_, ?_, ?_, ?_⟩
  · exact not_mem_eraseIdx_of_nodup s.targets i td hnd hget
  · exact hscene.not_mem_erase
  · exact hworld.not_mem_erase
  · simp [removeTarget]

/-- Witness for C8 at a one-target session. -/
theorem removeTarget_no_dangling_witness :
    (oneTgtSim.targets[0]? = some oneTgt ∧ oneTgtSim.targets.Nodup ∧
      oneTgtSim.sceneMeshes.Nodup ∧ oneTgtSim.worldBodies.Nodup) ∧
    (oneTgt ∉ (removeTarget oneTgt 0 oneTgtSim).targets ∧
      oneTgt.id ∉ (removeTarget oneTgt 0 oneTgtSim).sceneMeshes ∧
      oneTgt.bodyId ∉ (removeTarget oneTgt 0 oneTgtSim).worldBodies ∧
      oneTgt.id ∈ (removeTarget oneTgt 0 oneTgtSim).disposed) :=
  ⟨⟨by decide, by decide, by decide, by decide⟩,
    removeTarget_no_dangling oneTgtSim oneTgt 0 (by decide) (by decide) (by decide) (by decide)⟩

/-- C9: over any trace of frames and shoots whose initial tracked ids and
spawned uuids are globally distinct, each target id is retired at most
once — hit-based retirement and out-of-bounds pruning can never both tear
down the same target, because each path only retires targets still in the
tracking array and retirement removes them synchronously. -/
theorem retire_at_most_once (s : Sim) (evs : List Ev) (j : Nat)
    (h : ((s.targets.map Tgt.id) ++ spawnedIds evs).Nodup) :
    ((runTrace s evs).2).count j ≤ 1 := by
  have hc : ((s.targets.map Tgt.id) ++ spawnedIds evs).count j ≤ 1 :=
    List.nodup_iff_count_le_one.mp h j
  rw [List.count_append] at hc
  have := runTrace_count evs s j
  omega

/-- Witness for C9: one tracked target, one shot that retires it. -/
theorem retire_at_most_once_witness :
    ((oneTgtSim.targets.map Tgt.id) ++ spawnedIds [Ev.shoot (some 4)]).Nodup ∧
    ((runTrace oneTgtSim [Ev.shoot (some 4)]).2).count 4 ≤ 1 :=
  ⟨by decide, retire_at_most_once oneTgtSim [Ev.shoot (some 4)] 4 (by decide)⟩

/-- The association invariant spawn maintains: every tracked mesh uuid
resolves through `userData.targetData` to a record whose id is that
uuid. -/
def MeshInv (s : Sim) : Prop :=
  ∀ u ∈ s.targets.map Tgt.id, ∃ td, lookupAssoc s.meshData u = some td ∧ td.id = u

lemma lookupAssoc_cons (u : Nat) (td : Tgt) (l : List (Nat × Tgt)) (j : Nat) :
    lookupAssoc ((u, td) :: l) j = if u = j then some td else lookupAssoc l j := by
  by_cases h : u = j
  · subst h
    simp [lookupAssoc, List.find?_cons_of_pos]
  · have hb : ((u, td).1 == j) = false := by simpa using h
    simp [lookupAssoc, List.find?_cons_of_neg, hb, h]

lemma meshInv_step (s : Sim) (ev : Ev) (h : MeshInv s) : MeshInv (stepEv s ev).1 := by
  cases ev with
  | shoot ray =>
      intro v hv
      have hv1 : v ∈ s.targets.map Tgt.id := shoot_ids_subset s ray v hv
      obtain ⟨td, hl, hid⟩ := h v hv1
      refine ⟨td, ?_, hid⟩
      rw [show (stepEv s (Ev.shoot ray)).1.meshData = s.meshData from shoot_meshData s ray]
      exact hl
  | frame dt u tyIdx ry ri phys =>
      intro v hv
      have hv1 : v ∈ (framePre dt u tyIdx ry ri phys s).targets.map Tgt.id :=
        syncAndPrune_ids_subset _ v hv
      have hmd : (stepEv s (Ev.frame dt u tyIdx ry ri phys)).1.meshData
          = (framePre dt u tyIdx ry ri phys s).meshData :=
        pruneAux_meshData _ 0 _
      rcases framePre_cases dt u tyIdx ry ri phys s with ⟨hm, ht⟩ | ⟨hm, ht⟩
      · rw [ht, ids_stepPhysics] at hv1
        obtain ⟨td, hl, hid⟩ := h v hv1
        refine ⟨td, ?_, hid⟩
        rw [hmd, hm]
        exact hl
      · rw [ht, List.map_append, List.mem_append, ids_stepPhysics] at hv1
        by_cases hvu : u = v
        · refine ⟨spawnTd u tyIdx ry, ?_, hvu⟩
          rw [hmd, hm, lookupAssoc_cons, if_pos hvu]
        · have hv2 : v ∈ s.targets.map Tgt.id := by
            rcases hv1 with h1 | h1
            · exact h1
            · exfalso
              have hveq : v = u := by simpa [spawnTd] using h1
              exact hvu hveq.symm
          obtain ⟨td, hl, hid⟩ := h v hv2
          refine ⟨td, ?_, hid⟩
          rw [hmd, hm, lookupAssoc_cons, if_neg hvu]
          exact hl

lemma shoot_hit_resolves (s : Sim) (u : Nat) (h : MeshInv s)
    (hu : u ∈ s.targets.map Tgt.id) :
    (shoot s (some u)).warnNoData = false ∧
    (shoot s (some u)).warnNotFound = false ∧
    (shoot s (some u)).retired = [u] ∧
    (shoot s (some u)).hitRan = true := by
  obtain ⟨td, hl, hid⟩ := h u hu
  have hlm : lookupMeshData s u = some td := hl
  cases hf : findTargetIdx td.id s.targets with
  | none =>
      exfalso
      obtain ⟨t, htmem, hteq⟩ := List.mem_map.mp hu
      exact findTargetIdx_none s.targets td.id hf t htmem (hteq.trans hid.symm)
  | some i =>
      simp only [shoot, hlm, hf]
      exact ⟨trivial, trivial, by rw [hid], trivial⟩

/-- C10: the `userData` association established at spawn is preserved by
every event, and under it a raycast intersection with a tracked mesh
always resolves to a tracked owning target — both defensive warning
branches of `shoot` are unreachable and every successful intersection
retires exactly that one target. -/
theorem hit_resolution_total (s : Sim) :
    (∀ ev, MeshInv s → MeshInv (stepEv s ev).1) ∧
    (∀ u, MeshInv s → u ∈ s.targets.map Tgt.id →
      (shoot s (some u)).warnNoData = false ∧
      (shoot s (some u)).warnNotFound = false ∧
      (shoot s (some u)).retired = [u] ∧
      (shoot s (some u)).hitRan = true) :=
  ⟨fun ev h => meshInv_step s ev h, fun u h hu => shoot_hit_resolves s u h hu⟩

lemma meshInv_oneTgtSim : MeshInv oneTgtSim := by
  intro v hv
  have hv4 : v = 4 := by simpa [oneTgtSim, oneTgt] using hv
  subst hv4
  exact ⟨oneTgt, rfl, rfl⟩

/-- Witness for C10 at the one-target session. -/
theorem hit_resolution_total_witness :
    MeshInv (stepEv oneTgtSim (Ev.shoot none)).1 ∧
    ((shoot oneTgtSim (some 4)).warnNoData = false ∧
      (shoot oneTgtSim (some 4)).warnNotFound = false ∧
      (shoot oneTgtSim (some 4)).retired = [4] ∧
      (shoot oneTgtSim (some 4)).hitRan = true) :=
  ⟨(hit_resolution_total oneTgtSim).1 (Ev.shoot none) meshInv_oneTgtSim,
    (hit_resolution_total oneTgtSim).2 4 meshInv_oneTgtSim (by decide)⟩

end Ajsow
